import Mathlib

/-!
A shallow embedding of `app/context/tree_sitter_slicer.py`
(`TreeSitterContextSlicer`), the code-context extraction engine of the
secure-code-review bot, together with theorems settling the spec's claims
about it.

Modelling conventions:
* Python strings are Lean `String`s; Python string slicing `s[a:b]` on
  non-negative byte offsets is `strSlice`, Python list slicing with
  arbitrary integer bounds is `pySlice` (negative indices wrap, bounds
  clamp), `str.lower()` is `lowerTag` (ASCII lowering, which agrees with
  Python on the ASCII language tags the code compares against),
  `str.split('\n')` is `splitLines` and `'\n'.join` is `joinLines`.
* A tree-sitter syntax `Node` is `TSNode`: node-kind string, start/end
  byte offsets, start/end rows (`start_point[0]` / `end_point[0]`), and
  the ordered child list.  The parent back-reference is modelled by
  returning, along with the located node, the whole ancestor chain from
  the node up to the root (`findNodeChain`); walking `node.parent`
  repeatedly is exactly traversing that chain in order.  A node's
  `.text` equals the source sliced at its byte range, which is how
  tree-sitter defines it.
* A tree-sitter `Parser` is a function from source text to either a root
  node or an error (`parser.parse` raising is the error case); the file
  system is a function from path to either file text or a read error
  (`open`/`read` raising is the error case).  Exception handling in the
  Python code becomes case analysis on these `Except` values: the outer
  `try`/`except Exception` of `extract_context` routes every failure to
  `fallbackAfterError`, which re-reads the file and either produces the
  line-based fallback or the error-variant result, mirroring the nested
  `try`/`except` at the end of `extract_context`.
* Machine integers are `Int` (Python's unbounded ints); byte offsets are
  `Nat` (tree-sitter offsets are non-negative).
-/

/-- ASCII lowering of a language tag, modelling Python's `str.lower()` on
the ASCII tags this module compares against. -/
def lowerTag (s : String) : String :=
  String.mk (s.data.map Char.toLower)

/-- Split a character list at newline characters, keeping empty pieces,
exactly like Python's `str.split('\n')` does on the underlying text. -/
def splitOnNl (cs : List Char) : List (List Char) :=
  match cs with
  | [] => [[]]
  | c :: rest =>
    let r := splitOnNl rest
    if c = '\n' then [] :: r
    else
      match r with
      | [] => [[c]]
      | h :: t => (c :: h) :: t

/-- Python's `source_code.split('\n')`. -/
def splitLines (s : String) : List String :=
  (splitOnNl s.data).map String.mk

/-- Python's `'\n'.join(lines)`. -/
def joinLines (ls : List String) : String :=
  String.mk (List.intercalate ['\n'] (ls.map String.data))

/-- Resolve one Python slice bound against a list of the given length:
negative bounds count from the end, and both directions clamp to
`[0, len]`. -/
def pyIndex (len : Nat) (i : Int) : Nat :=
  if i < 0 then ((len : Int) + i).toNat else min len i.toNat

/-- Python's list slice `l[a:b]` with arbitrary integer bounds. -/
def pySlice {α : Type} (l : List α) (a b : Int) : List α :=
  (l.take (pyIndex l.length b)).drop (pyIndex l.length a)

/-- Python's string slice `s[a:b]` for non-negative bounds, as used with
tree-sitter byte offsets (`source_code[start_byte:end_byte]`). -/
def strSlice (s : String) (a b : Nat) : String :=
  String.mk ((s.data.take b).drop a)

/-- A tree-sitter syntax node: node-kind string, start/end byte offsets,
start/end rows (`start_point[0]` and `end_point[0]`, 0-indexed), and the
ordered list of children. -/
inductive TSNode where
  | mk (type : String) (startByte endByte : Nat) (startRow endRow : Int)
      (children : List TSNode)

def TSNode.type : TSNode → String
  | .mk t _ _ _ _ _ => t

def TSNode.startByte : TSNode → Nat
  | .mk _ sb _ _ _ _ => sb

def TSNode.endByte : TSNode → Nat
  | .mk _ _ eb _ _ _ => eb

def TSNode.startRow : TSNode → Int
  | .mk _ _ _ sr _ _ => sr

def TSNode.endRow : TSNode → Int
  | .mk _ _ _ _ er _ => er

def TSNode.children : TSNode → List TSNode
  | .mk _ _ _ _ _ c => c

/-- A tree-sitter parser: maps source text to the parse tree's root node,
or to an error when `parser.parse` raises. -/
structure Parser where
  parse : String → Except String TSNode

/-- The `TreeSitterContextSlicer` instance state: one long-lived parser
per supported language, initialized in `__init__`. -/
structure Slicer where
  pythonParser : Parser
  javascriptParser : Parser

/-- The file system as seen by `open(file_path).read()`: file text, or a
read error message when the read raises. -/
def FileSystem : Type := String → Except String String

/-- The `function_types` dict of `_find_containing_function`. -/
def functionTypes : List (String × List String) :=
  [("python", ["function_definition", "async_function_definition"]),
   ("javascript",
    ["function_declaration", "function_expression", "arrow_function",
     "method_definition"])]

/-- The `class_types` dict of `_find_containing_class`. -/
def classTypes : List (String × List String) :=
  [("python", ["class_definition"]),
   ("javascript", ["class_declaration", "class_expression"])]

/-- The `import_types` dict of `_extract_imports`. -/
def importTypes : List (String × List String) :=
  [("python", ["import_statement", "import_from_statement"]),
   ("javascript", ["import_statement", "import_declaration"])]

/-- `_get_parser`: dispatch on the lowered language tag; raises
`ValueError(f"Unsupported language: {language}")` for unregistered tags. -/
def Slicer.getParser (s : Slicer) (language : String) : Except String Parser :=
  if lowerTag language = "python" then
    Except.ok s.pythonParser
  else if lowerTag language ∈ ["javascript", "js"] then
    Except.ok s.javascriptParser
  else
    Except.error ("Unsupported language: " ++ language)

mutual
/-- `_find_node_at_line`: the most specific node whose row span contains
the (0-indexed) target line; children are tried in order and the first
recursive hit wins; a node with no containing child returns itself.  The
`sourceCode` parameter is carried but unused, as in the source. -/
def findNodeAtLine (node : TSNode) (lineNumber : Int) (sourceCode : String) :
    Option TSNode :=
  match node with
  | .mk t sb eb sr er children =>
    if sr ≤ lineNumber - 1 ∧ lineNumber - 1 ≤ er then
      match findNodeAtLineList children lineNumber sourceCode with
      | some r => some r
      | none => some (.mk t sb eb sr er children)
    else
      none

/-- The `for child in node.children` loop of `_find_node_at_line`:
return the first child whose recursive search yields a node. -/
def findNodeAtLineList (nodes : List TSNode) (lineNumber : Int)
    (sourceCode : String) : Option TSNode :=
  match nodes with
  | [] => none
  | c :: cs =>
    match findNodeAtLine c lineNumber sourceCode with
    | some r => some r
    | none => findNodeAtLineList cs lineNumber sourceCode
end

mutual
/-- `_find_node_at_line`, additionally returning the ancestor chain of
the located node (the node itself first, the root last).  This chain is
the model of the `node.parent` back-references that
`_find_containing_function` / `_find_containing_class` walk. -/
def findNodeChain (node : TSNode) (lineNumber : Int) (sourceCode : String) :
    Option (TSNode × List TSNode) :=
  match node with
  | .mk t sb eb sr er children =>
    if sr ≤ lineNumber - 1 ∧ lineNumber - 1 ≤ er then
      match findNodeChainList children lineNumber sourceCode with
      | some (r, chain) => some (r, chain ++ [.mk t sb eb sr er children])
      | none =>
        some (.mk t sb eb sr er children, [.mk t sb eb sr er children])
    else
      none

/-- Chain-returning version of the child loop of `_find_node_at_line`. -/
def findNodeChainList (nodes : List TSNode) (lineNumber : Int)
    (sourceCode : String) : Option (TSNode × List TSNode) :=
  match nodes with
  | [] => none
  | c :: cs =>
    match findNodeChain c lineNumber sourceCode with
    | some r => some r
    | none => findNodeChainList cs lineNumber sourceCode
end

/-- `_find_containing_function`: walk `current = node` up through its
parents (the ancestor chain) and return the first node whose kind is in
`function_types.get(language.lower(), [])`. -/
def findContainingFunction (chain : List TSNode) (language : String) :
    Option TSNode :=
  let targetTypes := (functionTypes.lookup (lowerTag language)).getD []
  chain.find? (fun n => targetTypes.contains n.type)

/-- `_find_containing_class`: same walk with
`class_types.get(language.lower(), [])`. -/
def findContainingClass (chain : List TSNode) (language : String) :
    Option TSNode :=
  let targetTypes := (classTypes.lookup (lowerTag language)).getD []
  chain.find? (fun n => targetTypes.contains n.type)

/-- `_get_node_type`: the node's own kind string. -/
def getNodeType (node : TSNode) : String :=
  node.type

/-- `_get_function_name`: the text of the first child whose kind is
`identifier`; `node.text` is the source sliced at the child's byte
range. -/
def getFunctionName (sourceCode : String) (node : Option TSNode) :
    Option String :=
  match node with
  | none => none
  | some n =>
    match n.children.find? (fun c => c.type == "identifier") with
    | some c => some (strSlice sourceCode c.startByte c.endByte)
    | none => none

/-- `_get_class_name`: identical scan over the class node's children. -/
def getClassName (sourceCode : String) (node : Option TSNode) :
    Option String :=
  match node with
  | none => none
  | some n =>
    match n.children.find? (fun c => c.type == "identifier") with
    | some c => some (strSlice sourceCode c.startByte c.endByte)
    | none => none

mutual
/-- The recursive `traverse` of `_extract_imports`: record this node's
text if its kind is an import kind, then recurse into the children in
order (pre-order / document order). -/
def collectImports (targetTypes : List String) (sourceCode : String)
    (node : TSNode) : List String :=
  match node with
  | .mk t sb eb _ _ children =>
    (if targetTypes.contains t then [strSlice sourceCode sb eb] else [])
      ++ collectImportsList targetTypes sourceCode children

/-- The `for child in node.children: traverse(child)` loop. -/
def collectImportsList (targetTypes : List String) (sourceCode : String)
    (nodes : List TSNode) : List String :=
  match nodes with
  | [] => []
  | c :: cs =>
    collectImports targetTypes sourceCode c
      ++ collectImportsList targetTypes sourceCode cs
end

/-- `_extract_imports`: traverse the whole tree from the root, then keep
only the first 10 collected import texts (`imports[:10]`). -/
def extractImports (rootNode : TSNode) (sourceCode : String)
    (language : String) : List String :=
  let targetTypes := (importTypes.lookup (lowerTag language)).getD []
  (collectImports targetTypes sourceCode rootNode).take 10

/-- The dictionaries `extract_context` can return: the structural result,
the line-based fallback result of `_extract_line_context` (whose
`context_type` is the literal `"line_based_fallback"` and which carries
no file path), and the error-variant result. -/
inductive ExtractResult where
  | structural (file : String) (targetLine : Int) (contextStartLine : Int)
      (contextEndLine : Int) (contextCode : String) (contextType : String)
      (functionName : Option String) (className : Option String)
      (imports : List String)
  | fallback (targetLine : Int) (contextStartLine : Int)
      (contextEndLine : Int) (contextCode : String)
  | error (file : String) (targetLine : Int) (message : String)
deriving DecidableEq

/-- The `context_type` entry of the returned dictionary: the context
node's kind for structural results, the literal `"line_based_fallback"`
for fallback results, and absent from the error variant. -/
def ExtractResult.contextType : ExtractResult → Option String
  | .structural _ _ _ _ _ ct _ _ _ => some ct
  | .fallback _ _ _ _ => some "line_based_fallback"
  | .error _ _ _ => none

/-- `_extract_line_context`: split into lines, select the window
`[max(0, line - context_lines - 1), min(len(lines), line + context_lines))`
(Python slice semantics), join it, and report 1-indexed bounds. -/
def extractLineContext (sourceCode : String) (lineNumber : Int)
    (contextLines : Int) : ExtractResult :=
  let lines := splitLines sourceCode
  let startLine : Int := max 0 (lineNumber - contextLines - 1)
  let endLine : Int := min (lines.length : Int) (lineNumber + contextLines)
  let contextCode := joinLines (pySlice lines startLine endLine)
  ExtractResult.fallback lineNumber (startLine + 1) endLine contextCode

/-- The `except Exception as e` handler of `extract_context`: re-read the
file and fall back to `_extract_line_context`; if the re-read also
raises, return the error-variant dictionary carrying the original
exception's message. -/
def fallbackAfterError (fs : FileSystem) (filePath : String)
    (lineNumber : Int) (contextLines : Int) (errorMessage : String) :
    ExtractResult :=
  match fs filePath with
  | .ok sourceCode => extractLineContext sourceCode lineNumber contextLines
  | .error _ => ExtractResult.error filePath lineNumber errorMessage

/-- Step 5 of the resolver: the context node to report, with priority
enclosing function, then enclosing class, then the located node. -/
def chooseContextNode (chain : List TSNode) (targetNode : TSNode)
    (language : String) : TSNode :=
  match findContainingFunction chain language with
  | some f => f
  | none =>
    match findContainingClass chain language with
    | some c => c
    | none => targetNode

/-- `extract_context`: read the file, parse it, locate the node at the
target line, pick the context node (function > class > located node),
and build the structural result; if no node is located, use the
line-based fallback; any raised error routes through
`fallbackAfterError`. -/
def Slicer.extractContext (s : Slicer) (fs : FileSystem) (filePath : String)
    (lineNumber : Int) (language : String) (contextLines : Int) :
    ExtractResult :=
  match fs filePath with
  | .error e => fallbackAfterError fs filePath lineNumber contextLines e
  | .ok sourceCode =>
    match s.getParser language with
    | .error e => fallbackAfterError fs filePath lineNumber contextLines e
    | .ok parser =>
      match parser.parse sourceCode with
      | .error e => fallbackAfterError fs filePath lineNumber contextLines e
      | .ok tree =>
        match findNodeChain tree lineNumber sourceCode with
        | none => extractLineContext sourceCode lineNumber contextLines
        | some (targetNode, chain) =>
          let containingFunction := findContainingFunction chain language
          let containingClass := findContainingClass chain language
          let contextNode := chooseContextNode chain targetNode language
          ExtractResult.structural filePath lineNumber
            (contextNode.startRow + 1) (contextNode.endRow + 1)
            (strSlice sourceCode contextNode.startByte contextNode.endByte)
            (getNodeType contextNode)
            (getFunctionName sourceCode containingFunction)
            (getClassName sourceCode containingClass)
            (extractImports tree sourceCode language)

mutual
/-- All nodes of a tree in document (pre-order) order; the specification-
side description of the order `_extract_imports` visits nodes in. -/
def preorderNodes (node : TSNode) : List TSNode :=
  match node with
  | .mk t sb eb sr er children =>
    TSNode.mk t sb eb sr er children :: preorderNodesList children

/-- Pre-order listing of a forest. -/
def preorderNodesList (nodes : List TSNode) : List TSNode :=
  match nodes with
  | [] => []
  | c :: cs => preorderNodes c ++ preorderNodesList cs
end

mutual
/-- Simultaneous induction over a `TSNode` and over child lists. -/
def tsnodeInd (P : TSNode → Prop) (Q : List TSNode → Prop)
    (hmk : ∀ t sb eb sr er children, Q children →
      P (.mk t sb eb sr er children))
    (hnil : Q [])
    (hcons : ∀ c cs, P c → Q cs → Q (c :: cs)) : ∀ n : TSNode, P n
  | .mk t sb eb sr er children =>
    hmk t sb eb sr er children (tsnodeIndList P Q hmk hnil hcons children)

/-- List part of `tsnodeInd`. -/
def tsnodeIndList (P : TSNode → Prop) (Q : List TSNode → Prop)
    (hmk : ∀ t sb eb sr er children, Q children →
      P (.mk t sb eb sr er children))
    (hnil : Q [])
    (hcons : ∀ c cs, P c → Q cs → Q (c :: cs)) : ∀ l : List TSNode, Q l
  | [] => hnil
  | c :: cs =>
    hcons c cs (tsnodeInd P Q hmk hnil hcons c)
      (tsnodeIndList P Q hmk hnil hcons cs)
end

/-! ### Concrete fixtures

Hand-written models of the trees the real tree-sitter grammars produce on
small inputs, used to instantiate the theorems and to refute claims at
concrete inputs.  A fixture parser returns its modelled tree exactly on
the modelled source and reports an error elsewhere. -/

/-- A parser whose `parse` always raises. -/
def failParser : Parser :=
  ⟨fun _ => Except.error "parse failed"⟩

/-- The spec's concrete scenario source: `def foo():\n    bar()\n`. -/
def fooSource : String := "def foo():\n    bar()\n"

/-- The tree-sitter Python parse tree of `fooSource`. -/
def fooTree : TSNode :=
  .mk "module" 0 21 0 2
    [.mk "function_definition" 0 20 0 1
      [.mk "def" 0 3 0 0 [],
       .mk "identifier" 4 7 0 0 [],
       .mk "parameters" 7 9 0 0 [],
       .mk ":" 9 10 0 0 [],
       .mk "block" 15 20 1 1
         [.mk "expression_statement" 15 20 1 1
           [.mk "call" 15 20 1 1
             [.mk "identifier" 15 18 1 1 [],
              .mk "argument_list" 18 20 1 1 []]]]]]

/-- The `function_definition` node inside `fooTree`. -/
def fooFuncNode : TSNode :=
  .mk "function_definition" 0 20 0 1
    [.mk "def" 0 3 0 0 [],
     .mk "identifier" 4 7 0 0 [],
     .mk "parameters" 7 9 0 0 [],
     .mk ":" 9 10 0 0 [],
     .mk "block" 15 20 1 1
       [.mk "expression_statement" 15 20 1 1
         [.mk "call" 15 20 1 1
           [.mk "identifier" 15 18 1 1 [],
            .mk "argument_list" 18 20 1 1 []]]]]

/-- Python parser modelled on `fooSource`. -/
def fooPythonParser : Parser :=
  ⟨fun src => if src = fooSource then Except.ok fooTree
    else Except.error "not modelled"⟩

/-- Slicer whose Python grammar is modelled on `fooSource`. -/
def fooSlicer : Slicer := ⟨fooPythonParser, failParser⟩

/-- File system with `foo.py` holding `fooSource`. -/
def fooFs : FileSystem :=
  fun p => if p = "foo.py" then Except.ok fooSource
    else Except.error "No such file or directory"

/-- A Python method scenario: `class A:` containing `def m(self):`. -/
def methodSource : String := "class A:\n    def m(self):\n        x()\n"

/-- The innermost node at the method body line of `methodSource`. -/
def methodTargetNode : TSNode := .mk "identifier" 34 35 2 2 []

/-- The `call` node of `methodSource`. -/
def methodCallNode : TSNode :=
  .mk "call" 34 37 2 2 [methodTargetNode, .mk "argument_list" 35 37 2 2 []]

/-- The `expression_statement` node of `methodSource`. -/
def methodExprNode : TSNode := .mk "expression_statement" 34 37 2 2 [methodCallNode]

/-- The method body `block` node of `methodSource`. -/
def methodInnerBlock : TSNode := .mk "block" 34 37 2 2 [methodExprNode]

/-- The `function_definition` node (the method `m`) of `methodSource`. -/
def methodFuncNode : TSNode :=
  .mk "function_definition" 13 37 1 2
    [.mk "def" 13 16 1 1 [],
     .mk "identifier" 17 18 1 1 [],
     .mk "parameters" 18 24 1 1 [],
     .mk ":" 24 25 1 1 [],
     methodInnerBlock]

/-- The class body `block` node of `methodSource`. -/
def methodClassBlock : TSNode := .mk "block" 13 37 1 2 [methodFuncNode]

/-- The `class_definition` node (class `A`) of `methodSource`. -/
def methodClassNode : TSNode :=
  .mk "class_definition" 0 37 0 2
    [.mk "class" 0 5 0 0 [],
     .mk "identifier" 6 7 0 0 [],
     .mk ":" 7 8 0 0 [],
     methodClassBlock]

/-- The tree-sitter Python parse tree of `methodSource`. -/
def methodTree : TSNode := .mk "module" 0 38 0 3 [methodClassNode]

/-- The ancestor chain of the node located at line 3 of `methodSource`. -/
def methodChain : List TSNode :=
  [methodTargetNode, methodCallNode, methodExprNode, methodInnerBlock,
   methodFuncNode, methodClassBlock, methodClassNode, methodTree]

/-- Python parser modelled on `methodSource`. -/
def methodPythonParser : Parser :=
  ⟨fun src => if src = methodSource then Except.ok methodTree
    else Except.error "not modelled"⟩

/-- Slicer whose Python grammar is modelled on `methodSource`. -/
def methodSlicer : Slicer := ⟨methodPythonParser, failParser⟩

/-- File system with `m.py` holding `methodSource`. -/
def methodFs : FileSystem :=
  fun p => if p = "m.py" then Except.ok methodSource
    else Except.error "No such file or directory"

/-- A one-line Python file. -/
def tinySource : String := "a"

/-- The tree-sitter Python parse tree of `tinySource`. -/
def tinyTree : TSNode :=
  .mk "module" 0 1 0 0
    [.mk "expression_statement" 0 1 0 0 [.mk "identifier" 0 1 0 0 []]]

/-- Python parser modelled on `tinySource`. -/
def tinyPythonParser : Parser :=
  ⟨fun src => if src = tinySource then Except.ok tinyTree
    else Except.error "not modelled"⟩

/-- Slicer whose Python grammar is modelled on `tinySource`. -/
def tinySlicer : Slicer := ⟨tinyPythonParser, failParser⟩

/-- File system with `a.py` holding `tinySource`. -/
def tinyFs : FileSystem :=
  fun p => if p = "a.py" then Except.ok tinySource
    else Except.error "No such file or directory"

/-- A one-function JavaScript file. -/
def jsSource : String := "function f() \x7b\n  g();\n\x7d"

/-- The innermost node at line 2 of `jsSource`. -/
def jsTargetNode : TSNode := .mk "identifier" 17 18 1 1 []

/-- The `function_declaration` node of `jsSource`. -/
def jsFuncNode : TSNode :=
  .mk "function_declaration" 0 23 0 2
    [.mk "function" 0 8 0 0 [],
     .mk "identifier" 9 10 0 0 [],
     .mk "formal_parameters" 10 12 0 0 [],
     .mk "statement_block" 13 23 0 2
       [.mk "\x7b" 13 14 0 0 [],
        .mk "expression_statement" 17 21 1 1
          [.mk "call_expression" 17 20 1 1
            [jsTargetNode, .mk "arguments" 18 20 1 1 []]],
        .mk "\x7d" 22 23 2 2 []]]

/-- The tree-sitter JavaScript parse tree of `jsSource`. -/
def jsTree : TSNode := .mk "program" 0 23 0 2 [jsFuncNode]

/-- JavaScript parser modelled on `jsSource`. -/
def jsJavascriptParser : Parser :=
  ⟨fun src => if src = jsSource then Except.ok jsTree
    else Except.error "not modelled"⟩

/-- Slicer whose JavaScript grammar is modelled on `jsSource`. -/
def jsSlicer : Slicer := ⟨failParser, jsJavascriptParser⟩

/-- File system with `a.js` holding `jsSource`. -/
def jsFs : FileSystem :=
  fun p => if p = "a.js" then Except.ok jsSource
    else Except.error "No such file or directory"

/-- A JavaScript class with a method `m`; the target line sits inside
the method body. -/
def jsMethodSource : String :=
  "class A \x7b\n  m() \x7b\n    g();\n  \x7d\n\x7d"

/-- The innermost node at line 3 of `jsMethodSource`. -/
def jsMethodTargetNode : TSNode := .mk "identifier" 22 23 2 2 []

/-- The `call_expression` node of `jsMethodSource`. -/
def jsMethodCallNode : TSNode :=
  .mk "call_expression" 22 25 2 2
    [jsMethodTargetNode, .mk "arguments" 23 25 2 2 []]

/-- The `expression_statement` node of `jsMethodSource`. -/
def jsMethodExprNode : TSNode :=
  .mk "expression_statement" 22 26 2 2 [jsMethodCallNode]

/-- The method body `statement_block` node of `jsMethodSource`. -/
def jsMethodBlockNode : TSNode :=
  .mk "statement_block" 16 30 1 3
    [.mk "\x7b" 16 17 1 1 [], jsMethodExprNode, .mk "\x7d" 29 30 3 3 []]

/-- The `method_definition` node of `jsMethodSource`.  In the
tree-sitter JavaScript grammar a method's name child is a
`property_identifier`, not an `identifier`. -/
def jsMethodDefNode : TSNode :=
  .mk "method_definition" 12 30 1 3
    [.mk "property_identifier" 12 13 1 1 [],
     .mk "formal_parameters" 13 15 1 1 [],
     jsMethodBlockNode]

/-- The `class_body` node of `jsMethodSource`. -/
def jsMethodClassBody : TSNode :=
  .mk "class_body" 8 32 0 4
    [.mk "\x7b" 8 9 0 0 [], jsMethodDefNode, .mk "\x7d" 31 32 4 4 []]

/-- The `class_declaration` node (class `A`) of `jsMethodSource`. -/
def jsMethodClassNode : TSNode :=
  .mk "class_declaration" 0 32 0 4
    [.mk "class" 0 5 0 0 [], .mk "identifier" 6 7 0 0 [],
     jsMethodClassBody]

/-- The tree-sitter JavaScript parse tree of `jsMethodSource`. -/
def jsMethodTree : TSNode := .mk "program" 0 32 0 4 [jsMethodClassNode]

/-- The ancestor chain of the node located at line 3 of
`jsMethodSource`. -/
def jsMethodChain : List TSNode :=
  [jsMethodTargetNode, jsMethodCallNode, jsMethodExprNode,
   jsMethodBlockNode, jsMethodDefNode, jsMethodClassBody,
   jsMethodClassNode, jsMethodTree]

/-- JavaScript parser modelled on `jsMethodSource`. -/
def jsMethodJavascriptParser : Parser :=
  ⟨fun src => if src = jsMethodSource then Except.ok jsMethodTree
    else Except.error "not modelled"⟩

/-- Slicer whose JavaScript grammar is modelled on `jsMethodSource`. -/
def jsMethodSlicer : Slicer := ⟨failParser, jsMethodJavascriptParser⟩

/-- File system with `c.js` holding `jsMethodSource`. -/
def jsMethodFs : FileSystem :=
  fun p => if p = "c.js" then Except.ok jsMethodSource
    else Except.error "No such file or directory"

/-- The innermost node at line 2 of `fooSource`. -/
def fooTargetNode : TSNode := .mk "identifier" 15 18 1 1 []

/-- The ancestor chain of the node located at line 2 of `fooSource`. -/
def fooChain : List TSNode :=
  [fooTargetNode,
   .mk "call" 15 20 1 1
     [fooTargetNode, .mk "argument_list" 18 20 1 1 []],
   .mk "expression_statement" 15 20 1 1
     [.mk "call" 15 20 1 1
       [fooTargetNode, .mk "argument_list" 18 20 1 1 []]],
   .mk "block" 15 20 1 1
     [.mk "expression_statement" 15 20 1 1
       [.mk "call" 15 20 1 1
         [fooTargetNode, .mk "argument_list" 18 20 1 1 []]]],
   fooFuncNode,
   fooTree]

/-- First of two sibling statements with the same row span. -/
def siblingA : TSNode := .mk "stmt_a" 0 2 0 0 []

/-- Second of two sibling statements with the same row span. -/
def siblingB : TSNode := .mk "stmt_b" 0 2 0 0 []

/-- Slicer both of whose parsers always raise. -/
def failSlicer : Slicer := ⟨failParser, failParser⟩

/-- File system with `t.txt` holding three lines. -/
def threeLineFs : FileSystem :=
  fun p => if p = "t.txt" then Except.ok "x\ny\nz"
    else Except.error "No such file or directory"

/-! ### Helper lemmas -/

/-- `_extract_line_context` unfolded to its window formulas. -/
theorem extractLineContext_eq (sourceCode : String)
    (lineNumber contextLines : Int) :
    extractLineContext sourceCode lineNumber contextLines
      = ExtractResult.fallback lineNumber
          (max 0 (lineNumber - contextLines - 1) + 1)
          (min ((splitLines sourceCode).length : Int)
            (lineNumber + contextLines))
          (joinLines (pySlice (splitLines sourceCode)
            (max 0 (lineNumber - contextLines - 1))
            (min ((splitLines sourceCode).length : Int)
              (lineNumber + contextLines)))) := rfl

/-- When the re-read succeeds, the exception handler produces the
line-based fallback, whatever the caught message was. -/
theorem fallbackAfterError_ok {fs : FileSystem} {filePath sourceCode : String}
    (h : fs filePath = Except.ok sourceCode) (lineNumber contextLines : Int)
    (msg : String) :
    fallbackAfterError fs filePath lineNumber contextLines msg
      = extractLineContext sourceCode lineNumber contextLines := by
  unfold fallbackAfterError
  rw [h]

/-- When the re-read also fails, the exception handler produces the
error-variant result carrying the original message. -/
theorem fallbackAfterError_error {fs : FileSystem} {filePath e : String}
    (h : fs filePath = Except.error e) (lineNumber contextLines : Int)
    (msg : String) :
    fallbackAfterError fs filePath lineNumber contextLines msg
      = ExtractResult.error filePath lineNumber msg := by
  unfold fallbackAfterError
  rw [h]

/-- When the read, the parser lookup, the parse, and the node search all
succeed, `extract_context` returns the structural result built from the
chosen context node and the located node's ancestor chain. -/
theorem extractContext_structural {s : Slicer} {fs : FileSystem}
    {filePath language source : String} {lineNumber contextLines : Int}
    {p : Parser} {tree t : TSNode} {chain : List TSNode}
    (hfs : fs filePath = Except.ok source)
    (hp : s.getParser language = Except.ok p)
    (hparse : p.parse source = Except.ok tree)
    (hchain : findNodeChain tree lineNumber source = some (t, chain)) :
    s.extractContext fs filePath lineNumber language contextLines
      = ExtractResult.structural filePath lineNumber
          ((chooseContextNode chain t language).startRow + 1)
          ((chooseContextNode chain t language).endRow + 1)
          (strSlice source (chooseContextNode chain t language).startByte
            (chooseContextNode chain t language).endByte)
          (getNodeType (chooseContextNode chain t language))
          (getFunctionName source (findContainingFunction chain language))
          (getClassName source (findContainingClass chain language))
          (extractImports tree source language) := by
  simp only [Slicer.extractContext, hfs, hp, hparse, hchain]

/-- Every node on the chain returned by `findNodeChain` passed the
row-span test, and the located node is on its own chain. -/
theorem findNodeChain_spec (lineNumber : Int) (sourceCode : String) :
    ∀ n : TSNode, ∀ t : TSNode, ∀ chain : List TSNode,
      findNodeChain n lineNumber sourceCode = some (t, chain) →
      t ∈ chain ∧ ∀ m ∈ chain,
        m.startRow ≤ lineNumber - 1 ∧ lineNumber - 1 ≤ m.endRow := by
  have main :=
    tsnodeInd
      (fun n => ∀ t chain,
        findNodeChain n lineNumber sourceCode = some (t, chain) →
        t ∈ chain ∧ ∀ m ∈ chain,
          m.startRow ≤ lineNumber - 1 ∧ lineNumber - 1 ≤ m.endRow)
      (fun l => ∀ t chain,
        findNodeChainList l lineNumber sourceCode = some (t, chain) →
        t ∈ chain ∧ ∀ m ∈ chain,
          m.startRow ≤ lineNumber - 1 ∧ lineNumber - 1 ≤ m.endRow)
      ?_ ?_ ?_
  · exact main
  · intro ty sb eb sr er children ih t chain h
    simp only [findNodeChain] at h
    split at h
    · rename_i hcontains
      cases hl : findNodeChainList children lineNumber sourceCode with
      | none =>
        rw [hl] at h
        simp only [Option.some.injEq, Prod.mk.injEq] at h
        obtain ⟨rfl, rfl⟩ := h
        refine ⟨List.mem_singleton_self _, ?_⟩
        intro m hm
        rw [List.mem_singleton] at hm
        subst hm
        simpa [TSNode.startRow, TSNode.endRow] using hcontains
      | some pr =>
        obtain ⟨r, ch⟩ := pr
        rw [hl] at h
        simp only [Option.some.injEq, Prod.mk.injEq] at h
        obtain ⟨rfl, rfl⟩ := h
        obtain ⟨hr, hall⟩ := ih r ch hl
        refine ⟨List.mem_append_left _ hr, ?_⟩
        intro m hm
        rcases List.mem_append.mp hm with hm | hm
        · exact hall m hm
        · rw [List.mem_singleton] at hm
          subst hm
          simpa [TSNode.startRow, TSNode.endRow] using hcontains
    · exact absurd h (by simp)
  · intro t chain h
    simp only [findNodeChainList] at h
    exact Option.noConfusion h
  · intro c cs ihc ihcs t chain h
    simp only [findNodeChainList] at h
    cases hc : findNodeChain c lineNumber sourceCode with
    | none =>
      rw [hc] at h
      exact ihcs t chain h
    | some pr =>
      rw [hc] at h
      cases h
      exact ihc t chain hc

/-- The chosen context node always lies on the located node's chain. -/
theorem chooseContextNode_mem {chain : List TSNode} {t : TSNode}
    (language : String) (ht : t ∈ chain) :
    chooseContextNode chain t language ∈ chain := by
  unfold chooseContextNode
  cases hf : findContainingFunction chain language with
  | some f =>
    unfold findContainingFunction at hf
    exact List.mem_of_find?_eq_some hf
  | none =>
    cases hc : findContainingClass chain language with
    | some c =>
      unfold findContainingClass at hc
      exact List.mem_of_find?_eq_some hc
    | none => exact ht

/-- A node whose row span does not contain the target line is never
located; one whose span does contain it always is. -/
theorem findNodeAtLine_eq_none_iff (c : TSNode) (lineNumber : Int)
    (sourceCode : String) :
    findNodeAtLine c lineNumber sourceCode = none
      ↔ ¬(c.startRow ≤ lineNumber - 1 ∧ lineNumber - 1 ≤ c.endRow) := by
  cases c with
  | mk t sb eb sr er children =>
    simp only [findNodeAtLine, TSNode.startRow, TSNode.endRow]
    split
    · rename_i h
      cases hl : findNodeAtLineList children lineNumber sourceCode <;>
        simp [hl, h]
    · rename_i h
      exact iff_of_true rfl h

/-- If every child search fails, the child loop fails. -/
theorem findNodeAtLineList_eq_none {nodes : List TSNode} {lineNumber : Int}
    {sourceCode : String}
    (h : ∀ c ∈ nodes, findNodeAtLine c lineNumber sourceCode = none) :
    findNodeAtLineList nodes lineNumber sourceCode = none := by
  induction nodes with
  | nil => simp [findNodeAtLineList]
  | cons c cs ih =>
    simp only [findNodeAtLineList]
    rw [h c (List.mem_cons_self c cs)]
    exact ih (fun c' hc' => h c' (List.mem_cons_of_mem c hc'))

/-- The child loop returns the first child whose search succeeds. -/
theorem findNodeAtLineList_first {pre post : List TSNode} {c r : TSNode}
    {lineNumber : Int} {sourceCode : String}
    (hpre : ∀ c' ∈ pre, findNodeAtLine c' lineNumber sourceCode = none)
    (hc : findNodeAtLine c lineNumber sourceCode = some r) :
    findNodeAtLineList (pre ++ c :: post) lineNumber sourceCode = some r := by
  induction pre with
  | nil =>
    simp only [List.nil_append, findNodeAtLineList]
    rw [hc]
  | cons d ds ih =>
    simp only [List.cons_append, findNodeAtLineList]
    rw [hpre d (List.mem_cons_self d ds)]
    exact ih (fun c' hc' => hpre c' (List.mem_cons_of_mem d hc'))

/-- C1: for every file path, line number, language tag, and
`context_lines` value (and any file-system and parser behavior),
`extract_context` returns a result and never raises: the result is a
structural result, a line-based fallback result, or an error-variant
result carrying the file path, the target line, and an error message. -/
theorem c1_extract_context_total (s : Slicer) (fs : FileSystem)
    (filePath : String) (lineNumber : Int) (language : String)
    (contextLines : Int) :
    (∃ csl cel cc ct fn cn imps,
      s.extractContext fs filePath lineNumber language contextLines
        = ExtractResult.structural filePath lineNumber csl cel cc ct fn cn
            imps)
    ∨ (∃ csl cel cc,
      s.extractContext fs filePath lineNumber language contextLines
        = ExtractResult.fallback lineNumber csl cel cc)
    ∨ (∃ msg,
      s.extractContext fs filePath lineNumber language contextLines
        = ExtractResult.error filePath lineNumber msg) := by
  have hshape : ∀ msg : String,
      (∃ csl cel cc,
        fallbackAfterError fs filePath lineNumber contextLines msg
          = ExtractResult.fallback lineNumber csl cel cc)
      ∨ fallbackAfterError fs filePath lineNumber contextLines msg
          = ExtractResult.error filePath lineNumber msg := by
    intro msg
    cases hre : fs filePath with
    | ok src =>
      rw [fallbackAfterError_ok hre, extractLineContext_eq]
      exact Or.inl ⟨_, _, _, rfl⟩
    | error e =>
      exact Or.inr (fallbackAfterError_error hre lineNumber contextLines msg)
  cases hfs : fs filePath with
  | error e =>
    rcases hshape e with ⟨csl, cel, cc, h⟩ | h
    · exact Or.inr (Or.inl ⟨csl, cel, cc, by
        simp only [Slicer.extractContext, hfs]; exact h⟩)
    · exact Or.inr (Or.inr ⟨e, by
        simp only [Slicer.extractContext, hfs]; exact h⟩)
  | ok source =>
    cases hp : s.getParser language with
    | error e =>
      rcases hshape e with ⟨csl, cel, cc, h⟩ | h
      · exact Or.inr (Or.inl ⟨csl, cel, cc, by
          simp only [Slicer.extractContext, hfs, hp]; exact h⟩)
      · exact Or.inr (Or.inr ⟨e, by
          simp only [Slicer.extractContext, hfs, hp]; exact h⟩)
    | ok p =>
      cases hparse : p.parse source with
      | error e =>
        rcases hshape e with ⟨csl, cel, cc, h⟩ | h
        · exact Or.inr (Or.inl ⟨csl, cel, cc, by
            simp only [Slicer.extractContext, hfs, hp, hparse]; exact h⟩)
        · exact Or.inr (Or.inr ⟨e, by
            simp only [Slicer.extractContext, hfs, hp, hparse]; exact h⟩)
      | ok tree =>
        cases hchain : findNodeChain tree lineNumber source with
        | none =>
          have hx : s.extractContext fs filePath lineNumber language
              contextLines = extractLineContext source lineNumber
              contextLines := by
            simp only [Slicer.extractContext, hfs, hp, hparse, hchain]
          rw [hx, extractLineContext_eq]
          exact Or.inr (Or.inl ⟨_, _, _, rfl⟩)
        | some pr =>
          obtain ⟨t, chain⟩ := pr
          exact Or.inl ⟨_, _, _, _, _, _, _,
            extractContext_structural hfs hp hparse hchain⟩

/-- C7: `_extract_line_context` computes the window
`start = max(0, line_number - context_lines - 1)`,
`end = min(line_count, line_number + context_lines)` over the 0-indexed
line list, returns the join of `lines[start:end]` with 1-indexed bounds
`start + 1` and `end`, and the selected slice is always a sublist of the
file's lines — never an out-of-bounds access, for any line number
including one beyond the file's last line. -/
theorem c7_line_context_window (sourceCode : String)
    (lineNumber contextLines : Int) :
    extractLineContext sourceCode lineNumber contextLines
      = ExtractResult.fallback lineNumber
          (max 0 (lineNumber - contextLines - 1) + 1)
          (min ((splitLines sourceCode).length : Int)
            (lineNumber + contextLines))
          (joinLines (pySlice (splitLines sourceCode)
            (max 0 (lineNumber - contextLines - 1))
            (min ((splitLines sourceCode).length : Int)
              (lineNumber + contextLines))))
    ∧ List.Sublist
        (pySlice (splitLines sourceCode)
          (max 0 (lineNumber - contextLines - 1))
          (min ((splitLines sourceCode).length : Int)
            (lineNumber + contextLines)))
        (splitLines sourceCode) := by
  constructor
  · rfl
  · unfold pySlice
    exact (List.drop_sublist _ _).trans (List.take_sublist _ _)

/-- C10: in `_find_node_at_line`, for a node whose row span contains the
target line, children are tried in their stored order and the first
recursive hit wins — later siblings are never the result when an earlier
sibling already matched — and when no child's span contains the line the
node itself is returned. -/
theorem c10_first_match_wins (t : String) (sb eb : Nat) (sr er : Int)
    (children : List TSNode) (lineNumber : Int) (sourceCode : String)
    (hcontains : sr ≤ lineNumber - 1 ∧ lineNumber - 1 ≤ er) :
    ((∀ c ∈ children,
        ¬(c.startRow ≤ lineNumber - 1 ∧ lineNumber - 1 ≤ c.endRow)) →
      findNodeAtLine (.mk t sb eb sr er children) lineNumber sourceCode
        = some (.mk t sb eb sr er children))
    ∧ (∀ (pre : List TSNode) (c : TSNode) (post : List TSNode) (r : TSNode),
        children = pre ++ c :: post →
        (∀ c' ∈ pre, findNodeAtLine c' lineNumber sourceCode = none) →
        findNodeAtLine c lineNumber sourceCode = some r →
        findNodeAtLine (.mk t sb eb sr er children) lineNumber sourceCode
          = some r) := by
  constructor
  · intro hnone
    have hl : findNodeAtLineList children lineNumber sourceCode = none :=
      findNodeAtLineList_eq_none (fun c hc =>
        (findNodeAtLine_eq_none_iff c lineNumber sourceCode).mpr (hnone c hc))
    simp only [findNodeAtLine, hl]
    rw [if_pos hcontains]
  · intro pre c post r hch hpre hc
    have hl : findNodeAtLineList children lineNumber sourceCode = some r := by
      rw [hch]
      exact findNodeAtLineList_first hpre hc
    simp only [findNodeAtLine, hl]
    rw [if_pos hcontains]

/-- Witness for C10: two siblings with identical spans; the search
returns the first. -/
theorem c10_witness :
    ((0 : Int) ≤ 1 - 1 ∧ (1 : Int) - 1 ≤ 0)
    ∧ findNodeAtLine (.mk "module" 0 2 0 0 [siblingA, siblingB]) 1 "ab"
        = some siblingA := by
  refine ⟨by decide, ?_⟩
  exact (c10_first_match_wins "module" 0 2 0 0 [siblingA, siblingB] 1 "ab"
    (by decide)).2 [] siblingA [siblingB] siblingA rfl (by simp) rfl

/-- Counterexample to C2: on the spec's own scenario
(`def foo():\n    bar()\n`, target line 2) the structural result's
context-type tag is the tree-sitter node type `"function_definition"`,
not one of the literals `"function"`, `"class"`, `"node"`. -/
theorem c2_counterexample :
    (fooSlicer.extractContext fooFs "foo.py" 2 "python" 10).contextType
      = some "function_definition"
    ∧ ¬((fooSlicer.extractContext fooFs "foo.py" 2 "python" 10).contextType
          = some "function"
        ∨ (fooSlicer.extractContext fooFs "foo.py" 2 "python" 10).contextType
          = some "class"
        ∨ (fooSlicer.extractContext fooFs "foo.py" 2 "python" 10).contextType
          = some "node") := by
  decide

/-- C2 (amended): whenever structural extraction succeeds, the
context-type tag is exactly the tree-sitter node type of the chosen
context node (the enclosing function node, else the enclosing class
node, else the originally located node) — e.g. `"function_definition"`,
not the literal `"function"`; on the scenario
(`def foo():\n    bar()\n`, line 2) the result has context type
`"function_definition"`, function name `"foo"`, and a context code span
that is the whole `def foo` block. -/
theorem c2_context_type_amended :
    (∀ (s : Slicer) (fs : FileSystem) (filePath language source : String)
      (lineNumber contextLines : Int) (p : Parser) (tree t : TSNode)
      (chain : List TSNode),
      fs filePath = Except.ok source →
      s.getParser language = Except.ok p →
      p.parse source = Except.ok tree →
      findNodeChain tree lineNumber source = some (t, chain) →
      (s.extractContext fs filePath lineNumber language
          contextLines).contextType
        = some (chooseContextNode chain t language).type)
    ∧ fooSlicer.extractContext fooFs "foo.py" 2 "python" 10
        = ExtractResult.structural "foo.py" 2 1 2 "def foo():\n    bar()"
            "function_definition" (some "foo") none [] := by
  constructor
  · intro s fs filePath language source lineNumber contextLines p tree t
      chain hfs hp hparse hchain
    rw [extractContext_structural hfs hp hparse hchain]
    rfl
  · decide

/-- Witness for C2 (amended): the hypotheses hold on the `fooSource`
fixture and the amended conclusion evaluates there. -/
theorem c2_witness :
    (fooFs "foo.py" = Except.ok fooSource
      ∧ fooSlicer.getParser "python" = Except.ok fooPythonParser
      ∧ fooPythonParser.parse fooSource = Except.ok fooTree
      ∧ findNodeChain fooTree 2 fooSource = some (fooTargetNode, fooChain))
    ∧ (fooSlicer.extractContext fooFs "foo.py" 2 "python" 10).contextType
        = some (chooseContextNode fooChain fooTargetNode "python").type := by
  refine ⟨⟨rfl, rfl, rfl, rfl⟩, ?_⟩
  exact c2_context_type_amended.1 fooSlicer fooFs "foo.py" "python"
    fooSource 2 10 fooPythonParser fooTree fooTargetNode fooChain
    rfl rfl rfl rfl

/-- Counterexample to C3: a JavaScript method (`class A` containing
method `m`, target line 3 inside the method body) is a line inside a
function nested in a class, and the function does win the span — but
`function_name` is not populated: the `method_definition` node's name
child is a `property_identifier`, which `_get_function_name`'s scan for
`identifier` children misses, so the structural result carries `None`
in the function-name slot. -/
theorem c3_counterexample :
    findNodeChain jsMethodTree 3 jsMethodSource
      = some (jsMethodTargetNode, jsMethodChain)
    ∧ findContainingFunction jsMethodChain "javascript"
      = some jsMethodDefNode
    ∧ findContainingClass jsMethodChain "javascript"
      = some jsMethodClassNode
    ∧ jsMethodSlicer.extractContext jsMethodFs "c.js" 3 "javascript" 10
      = ExtractResult.structural "c.js" 3 2 4 "m() \x7b\n    g();\n  \x7d"
          "method_definition" none (some "A") []
    ∧ ¬(getFunctionName jsMethodSource (some jsMethodDefNode)).isSome := by
  exact ⟨rfl, rfl, rfl, by decide, by decide⟩

/-- C3 (amended): in the structural path the context node is chosen with
priority enclosing function over enclosing class over the located node:
whenever a containing function is found — even when a containing class
is also resolvable, as for a method — the reported span, text, and type
are the function node's; the function name is populated exactly when the
function node has an `identifier` child (as for Python methods), and is
absent otherwise (as for JavaScript methods, whose name child is a
`property_identifier`). -/
theorem c3_function_priority (s : Slicer) (fs : FileSystem)
    (filePath language source : String) (lineNumber contextLines : Int)
    (p : Parser) (tree t f c : TSNode) (chain : List TSNode)
    (hfs : fs filePath = Except.ok source)
    (hp : s.getParser language = Except.ok p)
    (hparse : p.parse source = Except.ok tree)
    (hchain : findNodeChain tree lineNumber source = some (t, chain))
    (hf : findContainingFunction chain language = some f)
    (hc : findContainingClass chain language = some c) :
    s.extractContext fs filePath lineNumber language contextLines
      = ExtractResult.structural filePath lineNumber
          (f.startRow + 1) (f.endRow + 1)
          (strSlice source f.startByte f.endByte) f.type
          (getFunctionName source (some f)) (getClassName source (some c))
          (extractImports tree source language)
    ∧ ((getFunctionName source (some f)).isSome ↔
        ∃ ch ∈ f.children, ch.type = "identifier") := by
  have hcc : chooseContextNode chain t language = f := by
    unfold chooseContextNode
    rw [hf]
  constructor
  · rw [extractContext_structural hfs hp hparse hchain, hcc, hf, hc]
    rfl
  · unfold getFunctionName
    cases hfind : f.children.find? (fun d => d.type == "identifier") with
    | some d =>
      simp only [hfind, Option.isSome_some, true_iff]
      refine ⟨d, List.mem_of_find?_eq_some hfind, ?_⟩
      have hd := List.find?_some hfind
      simpa using hd
    | none =>
      simp only [hfind, Option.isSome_none, Bool.false_eq_true, false_iff]
      intro h
      obtain ⟨ch, hmem, hty⟩ := h
      have hnone := List.find?_eq_none.mp hfind ch hmem
      simp [hty] at hnone

/-- Witness for C3: the `methodSource` fixture (a method `m` inside
class `A`, target line 3) satisfies the hypotheses, and the function
wins over the class. -/
theorem c3_witness :
    (methodFs "m.py" = Except.ok methodSource
      ∧ methodSlicer.getParser "python" = Except.ok methodPythonParser
      ∧ methodPythonParser.parse methodSource = Except.ok methodTree
      ∧ findNodeChain methodTree 3 methodSource
          = some (methodTargetNode, methodChain)
      ∧ findContainingFunction methodChain "python" = some methodFuncNode
      ∧ findContainingClass methodChain "python" = some methodClassNode)
    ∧ methodSlicer.extractContext methodFs "m.py" 3 "python" 10
        = ExtractResult.structural "m.py" 3
            (methodFuncNode.startRow + 1) (methodFuncNode.endRow + 1)
            (strSlice methodSource methodFuncNode.startByte
              methodFuncNode.endByte)
            methodFuncNode.type
            (getFunctionName methodSource (some methodFuncNode))
            (getClassName methodSource (some methodClassNode))
            (extractImports methodTree methodSource "python")
    ∧ (getFunctionName methodSource (some methodFuncNode)).isSome := by
  have h := c3_function_priority methodSlicer methodFs "m.py" "python"
    methodSource 3 10 methodPythonParser methodTree methodTargetNode
    methodFuncNode methodClassNode methodChain rfl rfl rfl rfl rfl rfl
  exact ⟨⟨rfl, rfl, rfl, rfl, rfl, rfl⟩, h.1,
    h.2.mpr ⟨TSNode.mk "identifier" 17 18 1 1 [],
      by simp [methodFuncNode, TSNode.children], rfl⟩⟩

/-- Counterexample to C4: a one-line file with target line 5 reaches the
line-based fallback (a non-error variant), whose window is `[1, 1]` —
the target line is not bracketed. -/
theorem c4_counterexample :
    tinySlicer.extractContext tinyFs "a.py" 5 "python" 10
      = ExtractResult.fallback 5 1 1 "a"
    ∧ (tinySlicer.extractContext tinyFs "a.py" 5 "python" 10).contextType
        = some "line_based_fallback"
    ∧ ¬((5 : Int) ≤ 1) := by
  decide

/-- C4 (amended): structural results always bracket the target line
(`context_start_line ≤ target_line ≤ context_end_line`); line-based
fallback results bracket it provided `context_lines` is non-negative
and the target line lies within the file (`1 ≤ line ≤ line count`); a
fallback produced for a target line outside the file may violate the
bracket. -/
theorem c4_span_brackets_amended :
    (∀ (s : Slicer) (fs : FileSystem) (filePath language source : String)
      (lineNumber contextLines : Int) (p : Parser) (tree t : TSNode)
      (chain : List TSNode),
      fs filePath = Except.ok source →
      s.getParser language = Except.ok p →
      p.parse source = Except.ok tree →
      findNodeChain tree lineNumber source = some (t, chain) →
      ∃ csl cel cc ct fn cn imps,
        s.extractContext fs filePath lineNumber language contextLines
          = ExtractResult.structural filePath lineNumber csl cel cc ct fn
              cn imps
        ∧ csl ≤ lineNumber ∧ lineNumber ≤ cel)
    ∧ (∀ (sourceCode : String) (lineNumber contextLines : Int),
        0 ≤ contextLines → 1 ≤ lineNumber →
        lineNumber ≤ ((splitLines sourceCode).length : Int) →
        ∃ csl cel cc,
          extractLineContext sourceCode lineNumber contextLines
            = ExtractResult.fallback lineNumber csl cel cc
          ∧ csl ≤ lineNumber ∧ lineNumber ≤ cel) := by
  constructor
  · intro s fs filePath language source lineNumber contextLines p tree t
      chain hfs hp hparse hchain
    obtain ⟨htmem, hall⟩ :=
      findNodeChain_spec lineNumber source tree t chain hchain
    have hmem := chooseContextNode_mem language htmem
    obtain ⟨h1, h2⟩ := hall _ hmem
    exact ⟨_, _, _, _, _, _, _,
      extractContext_structural hfs hp hparse hchain,
      by omega, by omega⟩
  · intro sourceCode lineNumber contextLines hcl hlow hhigh
    refine ⟨_, _, _,
      extractLineContext_eq sourceCode lineNumber contextLines, ?_, ?_⟩ <;>
      omega

/-- Witness for C4 (amended): both conjuncts instantiated — the
structural part on the `fooSource` fixture, the fallback part on a
three-line file with an in-range target line. -/
theorem c4_witness :
    (fooFs "foo.py" = Except.ok fooSource
      ∧ findNodeChain fooTree 2 fooSource = some (fooTargetNode, fooChain)
      ∧ (0 : Int) ≤ 1 ∧ (1 : Int) ≤ 2
      ∧ (2 : Int) ≤ ((splitLines "x\ny\nz").length : Int))
    ∧ (∃ csl cel cc ct fn cn imps,
        fooSlicer.extractContext fooFs "foo.py" 2 "python" 10
          = ExtractResult.structural "foo.py" 2 csl cel cc ct fn cn imps
        ∧ csl ≤ 2 ∧ (2 : Int) ≤ cel)
    ∧ (∃ csl cel cc,
        extractLineContext "x\ny\nz" 2 1
          = ExtractResult.fallback 2 csl cel cc
        ∧ csl ≤ 2 ∧ (2 : Int) ≤ cel) := by
  refine ⟨⟨rfl, rfl, by decide, by decide, by decide⟩, ?_, ?_⟩
  · exact c4_span_brackets_amended.1 fooSlicer fooFs "foo.py" "python"
      fooSource 2 10 fooPythonParser fooTree fooTargetNode fooChain
      rfl rfl rfl rfl
  · exact c4_span_brackets_amended.2 "x\ny\nz" 2 1 (by decide) (by decide)
      (by decide)

/-- The `traverse` of `_extract_imports` visits the tree in document
(pre-order) order: it collects exactly the texts of the pre-order nodes
whose kind is in the target set. -/
theorem collectImports_eq_preorder (targetTypes : List String)
    (sourceCode : String) :
    ∀ n : TSNode,
      collectImports targetTypes sourceCode n
        = ((preorderNodes n).filter
            (fun m => targetTypes.contains m.type)).map
            (fun m => strSlice sourceCode m.startByte m.endByte) := by
  have main :=
    tsnodeInd
      (fun n => collectImports targetTypes sourceCode n
        = ((preorderNodes n).filter
            (fun m => targetTypes.contains m.type)).map
            (fun m => strSlice sourceCode m.startByte m.endByte))
      (fun l => collectImportsList targetTypes sourceCode l
        = ((preorderNodesList l).filter
            (fun m => targetTypes.contains m.type)).map
            (fun m => strSlice sourceCode m.startByte m.endByte))
      ?_ ?_ ?_
  · exact main
  · intro t sb eb sr er children ih
    by_cases h : t ∈ targetTypes <;>
      simp [collectImports, preorderNodes, List.filter_cons, h, ih,
        TSNode.type, TSNode.startByte, TSNode.endByte]
  · simp [collectImportsList, preorderNodesList]
  · intro c cs ihc ihcs
    simp [collectImportsList, preorderNodesList, List.filter_append, ihc,
      ihcs]

/-- C5: `_extract_imports` lists the literal text of the nodes whose kind
is in the language's import-kind set, collected by a pre-order
(document-order) traversal of the entire tree, truncated to the first
10; its length is at most 10 for every input. -/
theorem c5_imports_document_order (rootNode : TSNode)
    (sourceCode language : String) :
    extractImports rootNode sourceCode language
      = (((preorderNodes rootNode).filter
          (fun m => (((importTypes.lookup (lowerTag language)).getD
            []).contains m.type))).map
          (fun m => strSlice sourceCode m.startByte m.endByte)).take 10
    ∧ (extractImports rootNode sourceCode language).length ≤ 10 := by
  constructor
  · simp only [extractImports]
    rw [collectImports_eq_preorder]
  · simp only [extractImports]
    exact List.length_take_le 10 _

/-- C6: for every language tag not registered in `_get_parser`, the
lookup fails with the unsupported-language error; that error is caught
inside `extract_context`, and when the file is readable the returned
result is the line-based fallback. -/
theorem c6_unsupported_language (s : Slicer) (fs : FileSystem)
    (filePath language source : String) (lineNumber contextLines : Int)
    (hpy : lowerTag language ≠ "python")
    (hjs : lowerTag language ∉ (["javascript", "js"] : List String))
    (hfs : fs filePath = Except.ok source) :
    s.getParser language
      = Except.error ("Unsupported language: " ++ language)
    ∧ s.extractContext fs filePath lineNumber language contextLines
      = extractLineContext source lineNumber contextLines
    ∧ (s.extractContext fs filePath lineNumber language
        contextLines).contextType = some "line_based_fallback" := by
  have hgp : s.getParser language
      = Except.error ("Unsupported language: " ++ language) := by
    unfold Slicer.getParser
    rw [if_neg hpy, if_neg hjs]
  have hext : s.extractContext fs filePath lineNumber language contextLines
      = extractLineContext source lineNumber contextLines := by
    simp only [Slicer.extractContext, hfs, hgp]
    exact fallbackAfterError_ok hfs lineNumber contextLines _
  refine ⟨hgp, hext, ?_⟩
  rw [hext, extractLineContext_eq]
  rfl

/-- Witness for C6: the unregistered tag `"ruby"` on a readable
three-line file. -/
theorem c6_witness :
    (lowerTag "ruby" ≠ "python"
      ∧ lowerTag "ruby" ∉ (["javascript", "js"] : List String)
      ∧ threeLineFs "t.txt" = Except.ok "x\ny\nz")
    ∧ failSlicer.getParser "ruby"
        = Except.error ("Unsupported language: " ++ "ruby")
    ∧ failSlicer.extractContext threeLineFs "t.txt" 2 "ruby" 10
        = extractLineContext "x\ny\nz" 2 10
    ∧ (failSlicer.extractContext threeLineFs "t.txt" 2 "ruby"
        10).contextType = some "line_based_fallback" := by
  exact ⟨⟨by decide, by decide, rfl⟩,
    c6_unsupported_language failSlicer threeLineFs "t.txt" "ruby" "x\ny\nz"
      2 10 (by decide) (by decide) rfl⟩

/-- C9: whenever the parser for the language raises on the source text
(the code's notion of unparseable input), `extract_context` returns the
line-based fallback, whose window is the target-centred range
`[max(1, line - context_lines), min(line_count, line + context_lines)]`,
i.e. a 2·`context_lines`+1-line window centred at the target line
whenever that window fits inside the file, clipped at the file
boundaries otherwise. -/
theorem c9_parse_failure_fallback (s : Slicer) (fs : FileSystem)
    (filePath language source e : String) (lineNumber contextLines : Int)
    (p : Parser)
    (hfs : fs filePath = Except.ok source)
    (hp : s.getParser language = Except.ok p)
    (hparse : p.parse source = Except.error e) :
    s.extractContext fs filePath lineNumber language contextLines
      = extractLineContext source lineNumber contextLines
    ∧ (s.extractContext fs filePath lineNumber language
        contextLines).contextType = some "line_based_fallback"
    ∧ (∃ cc, s.extractContext fs filePath lineNumber language contextLines
        = ExtractResult.fallback lineNumber
            (max 1 (lineNumber - contextLines))
            (min ((splitLines source).length : Int)
              (lineNumber + contextLines)) cc)
    ∧ (1 ≤ lineNumber - contextLines →
        lineNumber + contextLines ≤ ((splitLines source).length : Int) →
        min ((splitLines source).length : Int) (lineNumber + contextLines)
          - max 1 (lineNumber - contextLines) + 1
          = 2 * contextLines + 1) := by
  have hext : s.extractContext fs filePath lineNumber language contextLines
      = extractLineContext source lineNumber contextLines := by
    simp only [Slicer.extractContext, hfs, hp, hparse]
    exact fallbackAfterError_ok hfs lineNumber contextLines _
  refine ⟨hext, by rw [hext, extractLineContext_eq]; rfl, ?_, ?_⟩
  · have hstart : max 0 (lineNumber - contextLines - 1) + 1
        = max 1 (lineNumber - contextLines) := by omega
    have hfb :=
      hext.trans (extractLineContext_eq source lineNumber contextLines)
    rw [hstart] at hfb
    exact ⟨_, hfb⟩
  · intro h1 h2
    omega

/-- Witness for C9: a parser that raises, a readable three-line file,
target line 2, one context line — the window is the full-size centred
`[1, 3]`. -/
theorem c9_witness :
    (threeLineFs "t.txt" = Except.ok "x\ny\nz"
      ∧ failSlicer.getParser "python" = Except.ok failParser
      ∧ failParser.parse "x\ny\nz" = Except.error "parse failed")
    ∧ failSlicer.extractContext threeLineFs "t.txt" 2 "python" 1
        = extractLineContext "x\ny\nz" 2 1
    ∧ (failSlicer.extractContext threeLineFs "t.txt" 2 "python"
        1).contextType = some "line_based_fallback"
    ∧ min ((splitLines "x\ny\nz").length : Int) (2 + 1) - max 1 (2 - 1) + 1
        = 2 * 1 + 1 := by
  have h := c9_parse_failure_fallback failSlicer threeLineFs "t.txt"
    "python" "x\ny\nz" "parse failed" 2 1 failParser rfl rfl rfl
  exact ⟨⟨rfl, rfl, rfl⟩, h.1, h.2.1, h.2.2.2 (by decide) (by decide)⟩

/-- `_get_parser` on a tag lowering to `"python"`. -/
theorem getParserPythonTag {s : Slicer} {language : String}
    (h : lowerTag language = "python") :
    s.getParser language = Except.ok s.pythonParser := by
  unfold Slicer.getParser
  rw [if_pos h]

/-- `_get_parser` on a tag lowering to `"javascript"` or `"js"`. -/
theorem getParserJsTag {s : Slicer} {language : String}
    (h : lowerTag language ∈ (["javascript", "js"] : List String)) :
    s.getParser language = Except.ok s.javascriptParser := by
  have hne : lowerTag language ≠ "python" := by
    intro he
    rw [he] at h
    exact absurd h (by decide)
  unfold Slicer.getParser
  rw [if_neg hne, if_pos h]

/-- `_get_parser` on an unregistered tag. -/
theorem getParserUnsupportedTag {s : Slicer} {language : String}
    (h1 : lowerTag language ≠ "python")
    (h2 : lowerTag language ∉ (["javascript", "js"] : List String)) :
    s.getParser language
      = Except.error ("Unsupported language: " ++ language) := by
  unfold Slicer.getParser
  rw [if_neg h1, if_neg h2]

/-- `_find_containing_function` only consults the lowered tag. -/
theorem findContainingFunction_tag {lang1 lang2 : String}
    (h : lowerTag lang1 = lowerTag lang2) (chain : List TSNode) :
    findContainingFunction chain lang1 = findContainingFunction chain lang2 := by
  unfold findContainingFunction
  rw [h]

/-- `_find_containing_class` only consults the lowered tag. -/
theorem findContainingClass_tag {lang1 lang2 : String}
    (h : lowerTag lang1 = lowerTag lang2) (chain : List TSNode) :
    findContainingClass chain lang1 = findContainingClass chain lang2 := by
  unfold findContainingClass
  rw [h]

/-- `_extract_imports` only consults the lowered tag. -/
theorem extractImports_tag {lang1 lang2 : String}
    (h : lowerTag lang1 = lowerTag lang2) (rootNode : TSNode)
    (sourceCode : String) :
    extractImports rootNode sourceCode lang1
      = extractImports rootNode sourceCode lang2 := by
  simp only [extractImports]
  rw [h]

/-- The context-node choice only consults the lowered tag. -/
theorem chooseContextNode_tag {lang1 lang2 : String}
    (h : lowerTag lang1 = lowerTag lang2) (chain : List TSNode)
    (targetNode : TSNode) :
    chooseContextNode chain targetNode lang1
      = chooseContextNode chain targetNode lang2 := by
  unfold chooseContextNode
  rw [findContainingFunction_tag h, findContainingClass_tag h]

/-- Counterexample to C8: on a JavaScript file whose target line sits
inside a function, the tag `"js"` does not behave like `"javascript"`:
the kind-set dictionaries have no `"js"` row, so the `"js"` call finds
no enclosing function and reports the bare located node. -/
theorem c8_counterexample :
    jsSlicer.extractContext jsFs "a.js" 2 "js" 10
      ≠ jsSlicer.extractContext jsFs "a.js" 2 "javascript" 10
    ∧ jsSlicer.extractContext jsFs "a.js" 2 "javascript" 10
        = ExtractResult.structural "a.js" 2 1 3 jsSource
            "function_declaration" (some "f") none []
    ∧ jsSlicer.extractContext jsFs "a.js" 2 "js" 10
        = ExtractResult.structural "a.js" 2 2 2 "g" "identifier" none none
            [] := by
  decide

/-- C8 (amended): language tags are case-insensitive — two tags with the
same lowering produce identical results — and `"js"` is an alias for
`"javascript"` in parser selection only: the function-, class- and
import-kind dictionaries have no `"js"` row, so a `"js"` call runs with
empty kind sets and its structural classification can differ from a
`"javascript"` call. -/
theorem c8_case_insensitive_amended :
    (∀ (s : Slicer) (fs : FileSystem) (filePath : String)
      (lineNumber contextLines : Int) (lang1 lang2 : String),
      lowerTag lang1 = lowerTag lang2 →
      s.extractContext fs filePath lineNumber lang1 contextLines
        = s.extractContext fs filePath lineNumber lang2 contextLines)
    ∧ (∀ s : Slicer, s.getParser "js" = Except.ok s.javascriptParser
        ∧ s.getParser "javascript" = Except.ok s.javascriptParser)
    ∧ functionTypes.lookup "js" = none
    ∧ classTypes.lookup "js" = none
    ∧ importTypes.lookup "js" = none := by
  refine ⟨?_, ?_, by decide, by decide, by decide⟩
  · intro s fs filePath lineNumber contextLines lang1 lang2 h
    cases hfs : fs filePath with
    | error e => simp only [Slicer.extractContext, hfs]
    | ok source =>
      by_cases hpy : lowerTag lang1 = "python"
      · have hg1 : s.getParser lang1 = Except.ok s.pythonParser :=
          getParserPythonTag hpy
        have hg2 : s.getParser lang2 = Except.ok s.pythonParser :=
          getParserPythonTag (h.symm.trans hpy)
        simp only [Slicer.extractContext, hfs, hg1, hg2]
        cases hparse : s.pythonParser.parse source with
        | error e => simp only [hparse]
        | ok tree =>
          simp only [hparse]
          cases hchain : findNodeChain tree lineNumber source with
          | none => simp only [hchain]
          | some pr =>
            obtain ⟨t, chain⟩ := pr
            simp only [hchain, findContainingFunction_tag h,
              findContainingClass_tag h, extractImports_tag h,
              chooseContextNode_tag h]
      · by_cases hjs : lowerTag lang1 ∈ (["javascript", "js"] : List String)
        · have hg1 : s.getParser lang1 = Except.ok s.javascriptParser :=
            getParserJsTag hjs
          have hg2 : s.getParser lang2 = Except.ok s.javascriptParser :=
            getParserJsTag (h ▸ hjs)
          simp only [Slicer.extractContext, hfs, hg1, hg2]
          cases hparse : s.javascriptParser.parse source with
          | error e => simp only [hparse]
          | ok tree =>
            simp only [hparse]
            cases hchain : findNodeChain tree lineNumber source with
            | none => simp only [hchain]
            | some pr =>
              obtain ⟨t, chain⟩ := pr
              simp only [hchain, findContainingFunction_tag h,
                findContainingClass_tag h, extractImports_tag h,
                chooseContextNode_tag h]
        · have hpy2 : lowerTag lang2 ≠ "python" :=
            fun he => hpy (h.trans he)
          have hjs2 : lowerTag lang2 ∉ (["javascript", "js"] : List String) :=
            fun he => hjs (h.symm ▸ he)
          have hg1 := @getParserUnsupportedTag s lang1 hpy hjs
          have hg2 := @getParserUnsupportedTag s lang2 hpy2 hjs2
          simp only [Slicer.extractContext, hfs, hg1, hg2]
          rw [fallbackAfterError_ok hfs, fallbackAfterError_ok hfs]
  · intro s
    exact ⟨rfl, rfl⟩

/-- Witness for C8 (amended): `"JS"` and `"js"` lower to the same tag
and give identical results on the JavaScript fixture. -/
theorem c8_witness :
    lowerTag "JS" = lowerTag "js"
    ∧ jsSlicer.extractContext jsFs "a.js" 2 "JS" 10
        = jsSlicer.extractContext jsFs "a.js" 2 "js" 10 := by
  exact ⟨by decide,
    c8_case_insensitive_amended.1 jsSlicer jsFs "a.js" 2 10 "JS" "js"
      (by decide)⟩
